import Mathlib

/-!
Shallow embedding of the Pomodoro timer engine (package `model`,
file `timer.go` in its fuller variant together with `settings.go`).

Conventions of the embedding:
- Go `time.Duration` is an `Int` counting nanoseconds; `time.Time` is an
  `Int` instant in nanoseconds.  `time.Now()` becomes an explicit `now`
  parameter on every operation that reads the clock; `time.Since(x)` is
  `now - x`.
- The `TaskManager` collaborator is observed through an event log: each
  call the timer makes into it (`AddCompletedPomodoro`, `AddTimeSpent`)
  appends one event to `Timer.events`, in call order.  The Go nil check
  `t.TaskManager != nil` becomes the boolean field `taskManagerPresent`.
- The floating-point percentage test in `Stop`
  (`(float64(elapsed)/float64(t.Duration))*100 >= 50`) is modelled
  exactly over the integers as `100 * elapsed >= 50 * duration`; for a
  positive duration in the representable range the two agree.
- `ProgressPercentage` (a `float64` in Go) is modelled over `ℚ`.
- Go integer `%` truncates toward zero, so it is `Int.tmod`.
-/

namespace PomodoroCli

/-- TimerState: the current state of the timer. -/
inductive TimerState where
  | stopped
  | running
  | paused
deriving DecidableEq, Repr

/-- TimerMode: focus, short break or long break. -/
inductive TimerMode where
  | focus
  | shortBreak
  | longBreak
deriving DecidableEq, Repr

/-- Default pomodoros per cycle (Go constant `DefaultPomodorosPerCycle`). -/
def DefaultPomodorosPerCycle : Int := 4

/-- Nanoseconds in one minute (`time.Minute`). -/
def nsPerMinute : Int := 60000000000

/-- Settings (from `settings.go`): durations in minutes plus the
auto-start-breaks flag. -/
structure Settings where
  pomodoroDuration : Int
  shortBreakDuration : Int
  longBreakDuration : Int
  autoStartBreaks : Bool
deriving DecidableEq, Repr

/-- `DefaultSettings()` from `settings.go`. -/
def DefaultSettings : Settings :=
  { pomodoroDuration := 25
    shortBreakDuration := 5
    longBreakDuration := 30
    autoStartBreaks := false }

/-- `Settings.GetPomodoroDuration` (minutes to `time.Duration`). -/
def Settings.getPomodoroDuration (s : Settings) : Int :=
  s.pomodoroDuration * nsPerMinute

/-- `Settings.GetShortBreakDuration`. -/
def Settings.getShortBreakDuration (s : Settings) : Int :=
  s.shortBreakDuration * nsPerMinute

/-- `Settings.GetLongBreakDuration`. -/
def Settings.getLongBreakDuration (s : Settings) : Int :=
  s.longBreakDuration * nsPerMinute

/-- One observable call the timer makes into the task manager. -/
inductive TaskEvent where
  | completedPomodoro (taskID : String)
  | timeSpent (taskID : String) (d : Int)
deriving DecidableEq, Repr

/-- The Timer structure from `timer.go`.  The pointer to the task manager
is replaced by a presence flag plus the event log of calls made into it. -/
structure Timer where
  state : TimerState
  mode : TimerMode
  remaining : Int
  startTime : Int
  duration : Int
  completedPomodoros : Int
  pomodorosPerCycle : Int
  currentTaskID : String
  taskManagerPresent : Bool
  settings : Settings
  events : List TaskEvent
deriving DecidableEq, Repr

/-- `NewTimer(taskManager)`. -/
def NewTimer (taskManagerPresent : Bool) : Timer :=
  { state := .stopped
    mode := .focus
    remaining := DefaultSettings.getPomodoroDuration
    startTime := 0
    duration := DefaultSettings.getPomodoroDuration
    completedPomodoros := 0
    pomodorosPerCycle := DefaultPomodorosPerCycle
    currentTaskID := ""
    taskManagerPresent := taskManagerPresent
    settings := DefaultSettings
    events := [] }

/-- The duration `updateDurationFromSettings` derives for a mode. -/
def derivedDuration (m : TimerMode) (s : Settings) : Int :=
  match m with
  | .focus => s.getPomodoroDuration
  | .shortBreak => s.getShortBreakDuration
  | .longBreak => s.getLongBreakDuration

/-- `Timer.updateDurationFromSettings`: always refreshes `duration` for
the current mode; resets `remaining` only when stopped. -/
def Timer.updateDurationFromSettings (t : Timer) : Timer :=
  let t1 := { t with duration := derivedDuration t.mode t.settings }
  if t1.state = .stopped then { t1 with remaining := t1.duration } else t1

/-- `Timer.SetSettings`. -/
def Timer.setSettings (s : Settings) (t : Timer) : Timer :=
  Timer.updateDurationFromSettings { t with settings := s }

/-- `Timer.Resume`. -/
def Timer.resume (now : Int) (t : Timer) : Timer :=
  if t.state = .paused then
    { t with state := .running, startTime := now - t.duration + t.remaining }
  else t

/-- `Timer.Start`. -/
def Timer.start (now : Int) (t : Timer) : Timer :=
  if t.state = .paused then t.resume now
  else
    Timer.updateDurationFromSettings { t with state := .running, startTime := now }

/-- The task-accounting calls guarded by `t.CurrentTaskID != "" &&
t.TaskManager != nil`: append the two reports to the event log. -/
def Timer.reportToTask (t : Timer) (timeAmount : Int) : Timer :=
  if t.currentTaskID ≠ "" ∧ t.taskManagerPresent then
    { t with events := t.events ++
        [.completedPomodoro t.currentTaskID, .timeSpent t.currentTaskID timeAmount] }
  else t

/-- `Timer.Stop`: 50-percent partial-credit accounting, then
stop and refresh duration and remaining. -/
def Timer.stop (now : Int) (t : Timer) : Timer :=
  let t1 :=
    if t.state = .running ∧ t.mode = .focus then
      let elapsed := now - t.startTime
      if 100 * elapsed ≥ 50 * t.duration then
        Timer.reportToTask
          { t with completedPomodoros := t.completedPomodoros + 1 } elapsed
      else t
    else t
  Timer.updateDurationFromSettings { t1 with state := .stopped }

/-- `Timer.Reset`. -/
def Timer.reset (t : Timer) : Timer :=
  Timer.updateDurationFromSettings { t with state := .stopped }

/-- `Timer.Pause`. -/
def Timer.pause (now : Int) (t : Timer) : Timer :=
  if t.state = .running then
    let elapsed := now - t.startTime
    let r := t.duration - elapsed
    { t with state := .paused, remaining := if r < 0 then 0 else r }
  else t

/-- `Timer.SetCurrentTask`. -/
def Timer.setCurrentTask (taskID : String) (t : Timer) : Timer :=
  { t with currentTaskID := taskID }

/-- `Timer.advanceTimerMode`. -/
def Timer.advanceTimerMode (t : Timer) : Timer :=
  let t1 :=
    match t.mode with
    | .focus =>
      if Int.tmod t.completedPomodoros t.pomodorosPerCycle = 0 then
        { t with mode := .longBreak, duration := t.settings.getLongBreakDuration }
      else
        { t with mode := .shortBreak, duration := t.settings.getShortBreakDuration }
    | .shortBreak =>
      { t with mode := .focus, duration := t.settings.getPomodoroDuration }
    | .longBreak =>
      { t with mode := .focus, duration := t.settings.getPomodoroDuration }
  { t1 with remaining := t1.duration }

/-- The focus-mode accounting block of `Timer.Update`: on completion of
a focus interval, increment the counter and report the full nominal
duration to the task manager. -/
def Timer.creditFocus (t : Timer) : Timer :=
  if t.mode = .focus then
    Timer.reportToTask
      { t with completedPomodoros := t.completedPomodoros + 1 } t.duration
  else t

/-- The completion block of `Timer.Update` (the body of its
`t.Remaining <= 0` branch): clamp, stop, credit a finished focus
interval, advance the mode, and auto-start breaks when enabled. -/
def Timer.completeInterval (now : Int) (t : Timer) : Timer :=
  let t3 := (Timer.creditFocus { t with remaining := 0, state := .stopped }).advanceTimerMode
  if t3.settings.autoStartBreaks ∧ (t3.mode = .shortBreak ∨ t3.mode = .longBreak) then
    t3.start now
  else t3

/-- `Timer.Update`: the periodic tick.  Returns the completion flag and
the updated timer.  The Go nil check on `t.Settings` is always true in
the embedding because settings are held by value. -/
def Timer.update (now : Int) (t : Timer) : Bool × Timer :=
  if t.state = .running then
    let elapsed := now - t.startTime
    let r := t.duration - elapsed
    if r ≤ 0 then (true, t.completeInterval now)
    else (false, { t with remaining := r })
  else (false, t)

/-- `Timer.ProgressPercentage`, over the rationals. -/
def Timer.progressPercentage (t : Timer) : ℚ :=
  if t.duration ≤ 0 then 0
  else 100 * (1 - (t.remaining : ℚ) / (t.duration : ℚ))

/-- `Timer.SkipBreak`. -/
def Timer.skipBreak (now : Int) (t : Timer) : Timer :=
  if t.mode = .shortBreak ∨ t.mode = .longBreak then
    Timer.reset (Timer.updateDurationFromSettings { t.stop now with mode := .focus })
  else t

/-- Well-formed settings: the three configured durations are nonnegative.
The spec has the Settings Store enforce at least one minute each; only
nonnegativity is needed here. -/
abbrev Settings.wf (s : Settings) : Prop :=
  0 ≤ s.pomodoroDuration ∧ 0 ≤ s.shortBreakDuration ∧ 0 ≤ s.longBreakDuration

/-- State invariant that actually holds of every reachable timer:
remaining is within bounds, duration agrees with the current mode and
settings, a stopped timer is freshly armed, and settings are well
formed. -/
abbrev Timer.Inv (t : Timer) : Prop :=
  0 ≤ t.remaining ∧ t.remaining ≤ t.duration ∧
  t.duration = derivedDuration t.mode t.settings ∧
  (t.state = .stopped → t.remaining = t.duration) ∧
  Settings.wf t.settings

/-- One public operation of the timer engine, with the clock instant it
reads where it reads one. -/
inductive Op where
  | opStart (now : Int)
  | opStop (now : Int)
  | opReset
  | opPause (now : Int)
  | opResume (now : Int)
  | opUpdate (now : Int)
  | opSetSettings (s : Settings)
  | opSetCurrentTask (taskID : String)
  | opSkipBreak (now : Int)
deriving DecidableEq, Repr

/-- Apply a public operation to a timer. -/
def Op.apply : Op → Timer → Timer
  | .opStart now, t => t.start now
  | .opStop now, t => t.stop now
  | .opReset, t => t.reset
  | .opPause now, t => t.pause now
  | .opResume now, t => t.resume now
  | .opUpdate now, t => (t.update now).2
  | .opSetSettings s, t => t.setSettings s
  | .opSetCurrentTask taskID, t => t.setCurrentTask taskID
  | .opSkipBreak now, t => t.skipBreak now

/-- The monotone-clock assumption: the instants read by Pause and Update
are not before the recorded start of the running segment. -/
abbrev Op.timeOK (op : Op) (t : Timer) : Prop :=
  match op with
  | .opPause now => t.startTime ≤ now
  | .opUpdate now => t.startTime ≤ now
  | _ => True

/-- Whether the operation is a SetSettings call. -/
def Op.isSetSettings : Op → Bool
  | .opSetSettings _ => true
  | _ => false

/-- Settings with a five-minute pomodoro, used to exhibit the effect of
shrinking the configured focus length mid-interval. -/
def settingsFiveMin : Settings :=
  { pomodoroDuration := 5
    shortBreakDuration := 5
    longBreakDuration := 30
    autoStartBreaks := false }

/-- Default settings with auto-start of breaks switched on. -/
def settingsAuto : Settings :=
  { pomodoroDuration := 25
    shortBreakDuration := 5
    longBreakDuration := 30
    autoStartBreaks := true }

/-- A task identifier used in concrete scenarios. -/
def sampleTaskID : String := "T"

/-- A freshly constructed timer started at instant 0: running a
25-minute focus interval. -/
def runningTimer : Timer := (NewTimer false).start 0

/-- A reachable state with `remaining > duration`: start, pause at once,
then shrink the configured pomodoro length by a settings change. -/
def shrunkTimer : Timer := (runningTimer.pause 0).setSettings settingsFiveMin

/-- A running focus timer with a selected task and a task manager. -/
def taskTimer : Timer := ((NewTimer true).setCurrentTask sampleTaskID).start 0

/-- A running focus timer whose settings auto-start breaks. -/
def autoTimer : Timer := ((NewTimer false).setSettings settingsAuto).start 0

/-- A timer running a short break (obtained by completing a focus
interval naturally and starting the break). -/
def breakRunTimer : Timer :=
  ((runningTimer.update 1500000000000).2).start 1500000000000

/-- Four-pomodoro cycle scenario, step by step: each focus interval is
started and completed naturally, then the resulting break is started
and completed naturally.  All instants are minute multiples of
`nsPerMinute`. -/
def c5u1 : Bool × Timer := runningTimer.update (25 * nsPerMinute)

def c5u2 : Bool × Timer := (c5u1.2.start (25 * nsPerMinute)).update (30 * nsPerMinute)

def c5u3 : Bool × Timer := (c5u2.2.start (30 * nsPerMinute)).update (55 * nsPerMinute)

def c5u4 : Bool × Timer := (c5u3.2.start (55 * nsPerMinute)).update (60 * nsPerMinute)

def c5u5 : Bool × Timer := (c5u4.2.start (60 * nsPerMinute)).update (85 * nsPerMinute)

def c5u6 : Bool × Timer := (c5u5.2.start (85 * nsPerMinute)).update (90 * nsPerMinute)

def c5u7 : Bool × Timer := (c5u6.2.start (90 * nsPerMinute)).update (115 * nsPerMinute)

/-- The mode the timer lands in after each of the four natural focus
completions of the scenario. -/
def scenarioBreakModes : List TimerMode :=
  [c5u1.2.mode, c5u3.2.mode, c5u5.2.mode, c5u7.2.mode]

/-- The focus-credit block touches only the pomodoro counter and the
event log. -/
theorem creditFocus_fields (t : Timer) :
    (Timer.creditFocus t).settings = t.settings ∧
    (Timer.creditFocus t).mode = t.mode ∧
    (Timer.creditFocus t).state = t.state ∧
    (Timer.creditFocus t).remaining = t.remaining ∧
    (Timer.creditFocus t).duration = t.duration ∧
    (Timer.creditFocus t).startTime = t.startTime := by
  simp only [Timer.creditFocus, Timer.reportToTask]
  split_ifs <;> simp

/-- After a mode advance the timer is freshly armed: remaining equals
the duration derived for the new mode, and the other fields carry
over. -/
theorem advanceTimerMode_fields (t : Timer) :
    t.advanceTimerMode.remaining = t.advanceTimerMode.duration ∧
    t.advanceTimerMode.duration = derivedDuration t.advanceTimerMode.mode t.settings ∧
    t.advanceTimerMode.settings = t.settings ∧
    t.advanceTimerMode.state = t.state ∧
    t.advanceTimerMode.startTime = t.startTime := by
  cases hm : t.mode <;>
    simp only [Timer.advanceTimerMode, hm] <;>
    first
      | (split_ifs <;> simp [derivedDuration])
      | simp [derivedDuration]

/-- Starting a timer that is not paused re-derives the duration, keeps
remaining, and marks the timer running. -/
theorem start_fields_not_paused (t : Timer) (now : Int) (h : t.state ≠ .paused) :
    (t.start now).remaining = t.remaining ∧
    (t.start now).duration = derivedDuration t.mode t.settings ∧
    (t.start now).state = .running ∧
    (t.start now).settings = t.settings ∧
    (t.start now).mode = t.mode := by
  simp only [Timer.start, Timer.resume, Timer.updateDurationFromSettings]
  split_ifs <;> simp_all

/-- Durations derived from well-formed settings are nonnegative. -/
theorem derivedDuration_nonneg (m : TimerMode) (s : Settings) (h : Settings.wf s) :
    0 ≤ derivedDuration m s := by
  obtain ⟨h1, h2, h3⟩ := h
  cases m <;>
    simp [derivedDuration, Settings.getPomodoroDuration, Settings.getShortBreakDuration,
      Settings.getLongBreakDuration, nsPerMinute] <;>
    nlinarith

/-- After the completion block of Update, remaining is within bounds. -/
theorem completeInterval_bounds (t : Timer) (now : Int) (hwf : Settings.wf t.settings) :
    0 ≤ (t.completeInterval now).remaining ∧
    (t.completeInterval now).remaining ≤ (t.completeInterval now).duration := by
  simp only [Timer.completeInterval]
  set t1 : Timer := { t with remaining := 0, state := TimerState.stopped } with ht1
  have e1 : t1.settings = t.settings := by rw [ht1]
  have e2 : t1.state = TimerState.stopped := by rw [ht1]
  obtain ⟨c1, c2, c3, c4, c5, c6⟩ := creditFocus_fields t1
  obtain ⟨a1, a2, a3, a4, a5⟩ := advanceTimerMode_fields t1.creditFocus
  rw [c1, e1] at a2 a3
  rw [c3, e2] at a4
  set t3 := t1.creditFocus.advanceTimerMode with ht3
  have hd3 : 0 ≤ t3.duration := by
    rw [a2]; exact derivedDuration_nonneg _ _ hwf
  split_ifs with hcond
  · obtain ⟨s1, s2, s3, s4, s5⟩ := start_fields_not_paused t3 now (by rw [a4]; simp)
    rw [s1, s2, a3, ← a2, a1]
    exact ⟨hd3, le_refl _⟩
  · rw [a1]
    exact ⟨hd3, le_refl _⟩

/-- A nonnegative integer has a zero truncated remainder by a positive
modulus exactly when it is a positive multiple of the modulus or
zero; for a positive dividend the multiple is positive. -/
theorem tmod_eq_zero_iff_pos_mult (a b : Int) (ha : 0 < a) (hb : 0 < b) :
    Int.tmod a b = 0 ↔ ∃ k, 0 < k ∧ a = k * b := by
  rw [Int.tmod_eq_emod (le_of_lt ha) (le_of_lt hb), ← Int.dvd_iff_emod_eq_zero]
  constructor
  · rintro ⟨c, rfl⟩
    exact ⟨c, by nlinarith, mul_comm b c⟩
  · rintro ⟨k, hk, rfl⟩
    exact ⟨k, mul_comm k b⟩

/-- C1, counterexample: on a Running timer, SetSettings with a smaller
configured pomodoro length does change the duration of the in-flight
interval, contrary to the claim that both duration and remaining are
left unchanged. -/
theorem spec_c1_counterexample :
    runningTimer.state = .running ∧
    (runningTimer.setSettings settingsFiveMin).duration ≠ runningTimer.duration := by
  decide

/-- C1, amended: SetSettings always re-derives the duration for the
current mode from the new settings, in every state; the remaining time
of a Running or Paused interval is left unchanged, and only a Stopped
timer also gets remaining reset to the new duration.  State and mode
are unaffected. -/
theorem spec_c1_set_settings (t : Timer) (s : Settings) :
    ((t.state = .running ∨ t.state = .paused) →
      (t.setSettings s).remaining = t.remaining) ∧
    (t.setSettings s).duration = derivedDuration t.mode s ∧
    (t.state = .stopped →
      (t.setSettings s).remaining = (t.setSettings s).duration) ∧
    (t.setSettings s).state = t.state ∧ (t.setSettings s).mode = t.mode := by
  refine ⟨?_, ?_, ?_, ?_, ?_⟩ <;>
    simp [Timer.setSettings, Timer.updateDurationFromSettings, derivedDuration] <;>
    split_ifs <;> simp_all

/-- C1 witness: the amended statement evaluated on the concrete running
timer and the five-minute settings. -/
theorem spec_c1_set_settings_witness :
    (runningTimer.setSettings settingsFiveMin).remaining = runningTimer.remaining ∧
    (runningTimer.setSettings settingsFiveMin).duration =
      derivedDuration runningTimer.mode settingsFiveMin := by
  have h := spec_c1_set_settings runningTimer settingsFiveMin
  exact ⟨h.1 (Or.inl (by decide)), h.2.1⟩

/-- C2, counterexample: after the public operation SetSettings completes
on a paused timer whose configured pomodoro length shrank, the
remaining time exceeds the duration, so the claimed invariant
`0 <= remaining <= duration` after every public operation fails. -/
theorem spec_c2_counterexample :
    shrunkTimer.duration < shrunkTimer.remaining := by
  decide

/-- C2, amended: every public operation other than SetSettings preserves
`0 <= remaining <= duration` (from a reachable state, under a monotone
clock); SetSettings with well-formed new settings still guarantees
`0 <= remaining`, and keeps `remaining <= duration` when the timer is
Stopped, but not in general when it is Running or Paused. -/
theorem spec_c2_invariant (op : Op) (t : Timer) (hInv : t.Inv) (hT : op.timeOK t) :
    (op.isSetSettings = false →
      0 ≤ (op.apply t).remaining ∧ (op.apply t).remaining ≤ (op.apply t).duration) ∧
    (∀ s, op = .opSetSettings s → Settings.wf s →
      0 ≤ (op.apply t).remaining ∧
      (t.state = .stopped → (op.apply t).remaining ≤ (op.apply t).duration)) := by
  obtain ⟨h0, h1, h2, h3, hwf⟩ := hInv
  cases op with
  | opStart now =>
    refine ⟨fun _ => ?_, by simp⟩
    simp only [Op.apply, Timer.start, Timer.resume, Timer.updateDurationFromSettings]
    split_ifs <;> simp_all
  | opStop now =>
    have hd := derivedDuration_nonneg t.mode t.settings hwf
    refine ⟨fun _ => ?_, by simp⟩
    simp only [Op.apply, Timer.stop, Timer.reportToTask, Timer.updateDurationFromSettings]
    split_ifs <;> simp_all
  | opReset =>
    have hd := derivedDuration_nonneg t.mode t.settings hwf
    refine ⟨fun _ => ?_, by simp⟩
    simp only [Op.apply, Timer.reset, Timer.updateDurationFromSettings]
    split_ifs <;> simp_all
  | opPause now =>
    refine ⟨fun _ => ?_, by simp⟩
    simp only [Op.timeOK] at hT
    simp only [Op.apply, Timer.pause]
    split_ifs <;> simp_all <;> omega
  | opResume now =>
    refine ⟨fun _ => ?_, by simp⟩
    simp only [Op.apply, Timer.resume]
    split_ifs <;> simp_all
  | opUpdate now =>
    refine ⟨fun _ => ?_, by simp⟩
    simp only [Op.timeOK] at hT
    simp only [Op.apply, Timer.update]
    split_ifs with hrun hdone
    · simpa using completeInterval_bounds t now hwf
    · simp only
      constructor <;> simp <;> omega
    · simpa using ⟨h0, h1⟩
  | opSetSettings s =>
    refine ⟨by simp [Op.isSetSettings], ?_⟩
    intro s2 hs2 hwf2
    have hss : s = s2 := by injection hs2
    rw [← hss] at hwf2
    have hd := derivedDuration_nonneg t.mode s hwf2
    simp only [Op.apply, Timer.setSettings, Timer.updateDurationFromSettings]
    split_ifs <;> simp_all
  | opSetCurrentTask taskID =>
    refine ⟨fun _ => ?_, by simp⟩
    simp only [Op.apply, Timer.setCurrentTask]
    exact ⟨h0, h1⟩
  | opSkipBreak now =>
    have hd := derivedDuration_nonneg TimerMode.focus t.settings hwf
    refine ⟨fun _ => ?_, by simp⟩
    simp only [Op.apply, Timer.skipBreak, Timer.stop, Timer.reset, Timer.reportToTask,
      Timer.updateDurationFromSettings]
    split_ifs <;> simp_all [derivedDuration]

/-- C2 witness: the amended statement evaluated for a Pause at minute
ten of the concrete running timer. -/
theorem spec_c2_invariant_witness :
    0 ≤ ((Op.opPause 600000000000).apply runningTimer).remaining ∧
    ((Op.opPause 600000000000).apply runningTimer).remaining ≤
      ((Op.opPause 600000000000).apply runningTimer).duration :=
  (spec_c2_invariant (Op.opPause 600000000000) runningTimer (by decide) (by decide)).1
    (by decide)

/-- C3: stopping a Running Focus timer credits a pomodoro exactly when
the elapsed time is at least half the duration; in that case the
counter is incremented and, when a task is selected and a task manager
is attached, one completed pomodoro and the measured elapsed time are
reported; below the threshold nothing is credited or reported.  In all
cases the timer stops, duration and remaining are re-derived from the
current mode and settings, and the mode is unchanged. -/
theorem spec_c3_stop_partial_credit (t : Timer) (now : Int)
    (hs : t.state = .running) (hm : t.mode = .focus) :
    (2 * (now - t.startTime) ≥ t.duration →
        (t.stop now).completedPomodoros = t.completedPomodoros + 1 ∧
        (t.currentTaskID ≠ "" → t.taskManagerPresent = true →
          (t.stop now).events = t.events ++
            [TaskEvent.completedPomodoro t.currentTaskID,
             TaskEvent.timeSpent t.currentTaskID (now - t.startTime)]) ∧
        ((t.currentTaskID = "" ∨ t.taskManagerPresent = false) →
          (t.stop now).events = t.events)) ∧
    (2 * (now - t.startTime) < t.duration →
        (t.stop now).completedPomodoros = t.completedPomodoros ∧
        (t.stop now).events = t.events) ∧
    (t.stop now).state = .stopped ∧
    (t.stop now).mode = t.mode ∧
    (t.stop now).duration = derivedDuration t.mode t.settings ∧
    (t.stop now).remaining = (t.stop now).duration := by
  by_cases hge : 100 * (now - t.startTime) ≥ 50 * t.duration
  · by_cases h1 : t.currentTaskID = ""
    · simp [Timer.stop, Timer.reportToTask, Timer.updateDurationFromSettings,
        derivedDuration, hs, hm, hge, h1]
      omega
    · by_cases h2 : t.taskManagerPresent = true
      · simp [Timer.stop, Timer.reportToTask, Timer.updateDurationFromSettings,
          derivedDuration, hs, hm, hge, h1, h2]
        omega
      · simp [Timer.stop, Timer.reportToTask, Timer.updateDurationFromSettings,
          derivedDuration, hs, hm, hge, h1, h2]
        omega
  · simp [Timer.stop, Timer.reportToTask, Timer.updateDurationFromSettings,
      derivedDuration, hs, hm, hge]
    omega

/-- C3 witness: stopping the concrete task timer at minute twenty of a
25-minute focus interval credits the pomodoro and reports the measured
twenty minutes. -/
theorem spec_c3_stop_partial_credit_witness :
    (taskTimer.stop 1200000000000).completedPomodoros =
      taskTimer.completedPomodoros + 1 ∧
    (taskTimer.stop 1200000000000).events = taskTimer.events ++
      [TaskEvent.completedPomodoro taskTimer.currentTaskID,
       TaskEvent.timeSpent taskTimer.currentTaskID (1200000000000 - taskTimer.startTime)] ∧
    (taskTimer.stop 1200000000000).state = .stopped := by
  have h := spec_c3_stop_partial_credit taskTimer 1200000000000 (by decide) (by decide)
  exact ⟨(h.1 (by decide)).1, (h.1 (by decide)).2.1 (by decide) (by decide), h.2.2.1⟩

/-- C4: a natural completion found by Update returns true; a Focus
completion increments the counter and, with a task selected and a task
manager attached, reports one completed pomodoro and the full nominal
duration as time spent; a completing break reports nothing and leaves
the counter unchanged. -/
theorem spec_c4_update_natural_completion (t : Timer) (now : Int)
    (hs : t.state = .running) (he : t.duration ≤ now - t.startTime) :
    (t.update now).1 = true ∧
    (t.mode = .focus →
      (t.update now).2.completedPomodoros = t.completedPomodoros + 1 ∧
      (t.currentTaskID ≠ "" → t.taskManagerPresent = true →
        (t.update now).2.events = t.events ++
          [TaskEvent.completedPomodoro t.currentTaskID,
           TaskEvent.timeSpent t.currentTaskID t.duration])) ∧
    ((t.mode = .shortBreak ∨ t.mode = .longBreak) →
      (t.update now).2.completedPomodoros = t.completedPomodoros ∧
      (t.update now).2.events = t.events) := by
  have hr : t.duration - (now - t.startTime) ≤ 0 := by omega
  by_cases hm : t.mode = TimerMode.focus
  · by_cases h1 : t.currentTaskID = ""
    · simp [Timer.update, Timer.completeInterval, Timer.creditFocus, Timer.reportToTask,
        Timer.advanceTimerMode, Timer.start, Timer.resume,
        Timer.updateDurationFromSettings, hs, hm, hr, h1]
      split_ifs <;> simp
    · by_cases h2 : t.taskManagerPresent = true
      · simp [Timer.update, Timer.completeInterval, Timer.creditFocus, Timer.reportToTask,
          Timer.advanceTimerMode, Timer.start, Timer.resume,
          Timer.updateDurationFromSettings, hs, hm, hr, h1, h2]
        split_ifs <;> simp
      · simp [Timer.update, Timer.completeInterval, Timer.creditFocus, Timer.reportToTask,
          Timer.advanceTimerMode, Timer.start, Timer.resume,
          Timer.updateDurationFromSettings, hs, hm, hr, h1, h2]
        split_ifs <;> simp
  · have hmm : t.mode = TimerMode.shortBreak ∨ t.mode = TimerMode.longBreak := by
      cases hmode : t.mode <;> simp_all
    simp [Timer.update, Timer.completeInterval, Timer.creditFocus, Timer.reportToTask,
      Timer.advanceTimerMode, Timer.start, Timer.resume,
      Timer.updateDurationFromSettings, hs, hm, hr]
    rcases hmm with h | h <;> simp [h]

/-- C4 witness: natural completion of the concrete task timer reports
one pomodoro and the full 25-minute nominal duration. -/
theorem spec_c4_update_natural_completion_witness :
    (taskTimer.update 1500000000000).1 = true ∧
    (taskTimer.update 1500000000000).2.events = taskTimer.events ++
      [TaskEvent.completedPomodoro taskTimer.currentTaskID,
       TaskEvent.timeSpent taskTimer.currentTaskID taskTimer.duration] := by
  have h := spec_c4_update_natural_completion taskTimer 1500000000000 (by decide) (by decide)
  exact ⟨h.1, (h.2.1 (by decide)).2 (by decide) (by decide)⟩

/-- C5: on natural completion the mode advances from Focus to LongBreak
exactly when the just-incremented counter is a positive multiple of
pomodorosPerCycle, to ShortBreak otherwise, and from either break back
to Focus; duration is re-derived for the new mode and remaining reset
to it.  The concrete four-pomodoro cycle yields the break sequence
ShortBreak, ShortBreak, ShortBreak, LongBreak. -/
theorem spec_c5_mode_advance :
    (∀ (t : Timer) (now : Int),
      t.state = .running →
      t.duration ≤ now - t.startTime →
      0 ≤ t.completedPomodoros →
      0 < t.pomodorosPerCycle →
      ((t.mode = .focus →
          ((((t.update now).2.mode = .longBreak) ↔
             (∃ k, 0 < k ∧ t.completedPomodoros + 1 = k * t.pomodorosPerCycle)) ∧
           (((t.update now).2.mode = .shortBreak) ↔
             ¬ (∃ k, 0 < k ∧ t.completedPomodoros + 1 = k * t.pomodorosPerCycle)))) ∧
       ((t.mode = .shortBreak ∨ t.mode = .longBreak) →
          (t.update now).2.mode = .focus) ∧
       ((t.update now).2.duration = derivedDuration (t.update now).2.mode t.settings) ∧
       ((t.update now).2.remaining = (t.update now).2.duration))) ∧
    (scenarioBreakModes =
      [TimerMode.shortBreak, TimerMode.shortBreak, TimerMode.shortBreak,
       TimerMode.longBreak]) := by
  constructor
  · intro t now hs he hc hp
    have hr : t.duration - (now - t.startTime) ≤ 0 := by omega
    have hiff := tmod_eq_zero_iff_pos_mult (t.completedPomodoros + 1) t.pomodorosPerCycle
      (by omega) hp
    by_cases hm : t.mode = TimerMode.focus
    · by_cases hmod : Int.tmod (t.completedPomodoros + 1) t.pomodorosPerCycle = 0 <;>
        simp [Timer.update, Timer.completeInterval, Timer.creditFocus, Timer.reportToTask,
          Timer.advanceTimerMode, Timer.start, Timer.resume,
          Timer.updateDurationFromSettings, derivedDuration, hs, hm, hr, hmod] <;>
        split_ifs <;>
        simp_all [derivedDuration]
    · have hmm : t.mode = TimerMode.shortBreak ∨ t.mode = TimerMode.longBreak := by
        cases hmode : t.mode <;> simp_all
      rcases hmm with h | h <;>
        simp [Timer.update, Timer.completeInterval, Timer.creditFocus, Timer.reportToTask,
          Timer.advanceTimerMode, Timer.start, Timer.resume,
          Timer.updateDurationFromSettings, derivedDuration, hs, h, hr]
  · decide

/-- C5 witness: the general statement evaluated at the first natural
completion of the concrete running timer. -/
theorem spec_c5_mode_advance_witness :
    (runningTimer.update 1500000000000).2.duration =
      derivedDuration (runningTimer.update 1500000000000).2.mode runningTimer.settings ∧
    (runningTimer.update 1500000000000).2.remaining =
      (runningTimer.update 1500000000000).2.duration :=
  (spec_c5_mode_advance.1 runningTimer 1500000000000 (by decide) (by decide)
    (by decide) (by decide)).2.2

/-- C7: when Update completes a Focus interval, the new mode is a break;
with autoStartBreaks set the same Update call chains into Start, ending
Running; without it the timer ends Stopped.  Update returns true either
way. -/
theorem spec_c7_auto_start_breaks (t : Timer) (now : Int)
    (hs : t.state = .running) (hm : t.mode = .focus)
    (he : t.duration ≤ now - t.startTime) :
    (t.update now).1 = true ∧
    ((t.update now).2.mode = .shortBreak ∨ (t.update now).2.mode = .longBreak) ∧
    (t.settings.autoStartBreaks = true → (t.update now).2.state = .running) ∧
    (t.settings.autoStartBreaks = false → (t.update now).2.state = .stopped) := by
  have hr : t.duration - (now - t.startTime) ≤ 0 := by omega
  by_cases hauto : t.settings.autoStartBreaks = true <;>
  by_cases hmod : Int.tmod (t.completedPomodoros + 1) t.pomodorosPerCycle = 0 <;>
    simp [Timer.update, Timer.completeInterval, Timer.creditFocus, Timer.reportToTask,
      Timer.advanceTimerMode, Timer.start, Timer.resume,
      Timer.updateDurationFromSettings, hs, hm, hr, hauto, hmod] <;>
    split_ifs <;> simp_all

/-- C7 witness: with auto-start enabled the concrete timer rolls
straight from the completed focus interval into a running break. -/
theorem spec_c7_auto_start_breaks_witness :
    (autoTimer.update 1500000000000).1 = true ∧
    (autoTimer.update 1500000000000).2.state = .running := by
  have h := spec_c7_auto_start_breaks autoTimer 1500000000000 (by decide) (by decide)
    (by decide)
  exact ⟨h.1, h.2.2.1 (by decide)⟩

/-- C6, counterexample: on a reachable timer whose remaining exceeds its
duration, ProgressPercentage returns a negative value, so the returned
value is not clamped to the interval from 0 to 100. -/
theorem spec_c6_counterexample :
    0 < shrunkTimer.duration ∧ shrunkTimer.progressPercentage < 0 := by
  have hd : shrunkTimer.duration = 300000000000 := by decide
  have hr : shrunkTimer.remaining = 1500000000000 := by decide
  constructor
  · rw [hd]; norm_num
  · simp [Timer.progressPercentage, hd, hr]
    norm_num

/-- C6, amended: ProgressPercentage returns 0 whenever the duration is
nonpositive and otherwise returns exactly 100 * (1 - remaining /
duration) with no clamping; whenever 0 <= remaining <= duration the
value does lie in the interval from 0 to 100. -/
theorem spec_c6_progress_percentage (t : Timer) :
    (t.duration ≤ 0 → t.progressPercentage = 0) ∧
    (0 < t.duration →
      t.progressPercentage =
        100 * (1 - (t.remaining : ℚ) / (t.duration : ℚ))) ∧
    (0 ≤ t.remaining → t.remaining ≤ t.duration →
      0 ≤ t.progressPercentage ∧ t.progressPercentage ≤ 100) := by
  refine ⟨fun h => by simp [Timer.progressPercentage, h], fun h => by
    simp [Timer.progressPercentage, not_le.mpr h], fun h0 hd => ?_⟩
  by_cases h : t.duration ≤ 0
  · simp [Timer.progressPercentage, h]
  · push_neg at h
    have hdq : (0 : ℚ) < (t.duration : ℚ) := by exact_mod_cast h
    have hr0 : (0 : ℚ) ≤ (t.remaining : ℚ) := by exact_mod_cast h0
    have hrd : (t.remaining : ℚ) ≤ (t.duration : ℚ) := by exact_mod_cast hd
    have hx0 : (0 : ℚ) ≤ (t.remaining : ℚ) / (t.duration : ℚ) :=
      div_nonneg hr0 (le_of_lt hdq)
    have hx1 : (t.remaining : ℚ) / (t.duration : ℚ) ≤ 1 :=
      (div_le_one hdq).mpr hrd
    constructor <;> simp [Timer.progressPercentage, not_le.mpr h] <;> nlinarith

/-- C6 witness: the amended statement evaluated on the fresh timer. -/
theorem spec_c6_progress_percentage_witness :
    0 ≤ (NewTimer false).progressPercentage ∧
    (NewTimer false).progressPercentage ≤ 100 :=
  (spec_c6_progress_percentage (NewTimer false)).2.2 (by decide) (by decide)

/-- C8: SkipBreak on a break-mode timer, in any state, lands in Focus
mode, Stopped, with duration and remaining re-derived from the focus
settings, without touching the event log or the pomodoro counter;
SkipBreak on a Focus-mode timer is the identity. -/
theorem spec_c8_skip_break (t : Timer) (now : Int) :
    ((t.mode = .shortBreak ∨ t.mode = .longBreak) →
      (t.skipBreak now).mode = .focus ∧
      (t.skipBreak now).state = .stopped ∧
      (t.skipBreak now).duration = t.settings.getPomodoroDuration ∧
      (t.skipBreak now).remaining = (t.skipBreak now).duration ∧
      (t.skipBreak now).events = t.events ∧
      (t.skipBreak now).completedPomodoros = t.completedPomodoros) ∧
    (t.mode = .focus → t.skipBreak now = t) := by
  constructor
  · intro hmm
    rcases hmm with h | h <;>
      simp [Timer.skipBreak, Timer.stop, Timer.reset, Timer.reportToTask,
        Timer.updateDurationFromSettings, derivedDuration, h]
  · intro hm
    simp [Timer.skipBreak, hm]

/-- C8 witness: skipping a running short break one minute in lands in a
stopped focus timer with no task accounting. -/
theorem spec_c8_skip_break_witness :
    (breakRunTimer.skipBreak 1560000000000).mode = .focus ∧
    (breakRunTimer.skipBreak 1560000000000).state = .stopped ∧
    (breakRunTimer.skipBreak 1560000000000).events = breakRunTimer.events ∧
    (breakRunTimer.skipBreak 1560000000000).completedPomodoros =
      breakRunTimer.completedPomodoros := by
  have h := (spec_c8_skip_break breakRunTimer 1560000000000).1 (Or.inl (by decide))
  exact ⟨h.1, h.2.1, h.2.2.2.2.1, h.2.2.2.2.2⟩

/-- C9: pausing a Running timer and resuming at the same instant keeps
the remaining value, and the elapsed-time recomputation after the
resume (duration minus elapsed since the reconstructed start) yields
that same remaining value. -/
theorem spec_c9_pause_resume (t : Timer) (now : Int) (hs : t.state = .running) :
    ((t.pause now).resume now).remaining = (t.pause now).remaining ∧
    ((t.pause now).resume now).duration -
      (now - ((t.pause now).resume now).startTime) = (t.pause now).remaining ∧
    ((t.pause now).resume now).state = .running := by
  simp [Timer.pause, Timer.resume, hs]
  split_ifs <;> simp

/-- C9 witness: pause and immediate resume at minute ten of the concrete
running timer. -/
theorem spec_c9_pause_resume_witness :
    ((runningTimer.pause 600000000000).resume 600000000000).remaining =
      (runningTimer.pause 600000000000).remaining ∧
    ((runningTimer.pause 600000000000).resume 600000000000).duration -
      (600000000000 - ((runningTimer.pause 600000000000).resume 600000000000).startTime) =
      (runningTimer.pause 600000000000).remaining := by
  have h := spec_c9_pause_resume runningTimer 600000000000 (by decide)
  exact ⟨h.1, h.2.1⟩

/-- C10: Start on a timer that is already Running restarts the interval:
still Running, startTime reset to now, duration re-derived from the
current mode and settings, and no change to mode, counter, event log,
task selection, or remaining. -/
theorem spec_c10_start_restarts (t : Timer) (now : Int) (hs : t.state = .running) :
    (t.start now).state = .running ∧
    (t.start now).startTime = now ∧
    (t.start now).duration = derivedDuration t.mode t.settings ∧
    (t.start now).mode = t.mode ∧
    (t.start now).completedPomodoros = t.completedPomodoros ∧
    (t.start now).events = t.events ∧
    (t.start now).remaining = t.remaining ∧
    (t.start now).currentTaskID = t.currentTaskID := by
  simp [Timer.start, Timer.resume, Timer.updateDurationFromSettings, derivedDuration, hs]

/-- C10 witness: restarting the concrete running timer at minute five. -/
theorem spec_c10_start_restarts_witness :
    (runningTimer.start 300000000000).state = .running ∧
    (runningTimer.start 300000000000).startTime = 300000000000 ∧
    (runningTimer.start 300000000000).completedPomodoros =
      runningTimer.completedPomodoros ∧
    (runningTimer.start 300000000000).events = runningTimer.events := by
  have h := spec_c10_start_restarts runningTimer 300000000000 (by decide)
  exact ⟨h.1, h.2.1, h.2.2.2.2.1, h.2.2.2.2.2.1⟩

end PomodoroCli
